import Mathlib

/-!
Verification of the S4_API core logic: a shallow embedding of the
endpoint-discovery / schema-normalization code (`src/utils/apiClient.ts`),
the data-mapping validator (`DataMapping.tsx`), the row-driven submission
loop (`SubmissionResults.tsx`) and the verification loop
(`DataVerification.tsx`), together with theorems settling the spec claims.

JavaScript values are modelled by an inductive `Json` type; `undefined` is
modelled as `Option.none` wherever a JS expression can be undefined.
JS numbers are modelled as integers (all numeric literals touched by the
claims are small integers; float behaviour is out of scope).
-/

namespace S4

/-- JSON/JS values (without `undefined`, which is `Option.none` around it). -/
inductive Json where
  | null : Json
  | bool (b : Bool) : Json
  | num (n : Int) : Json
  | str (s : String) : Json
  | arr (elems : List Json) : Json
  | obj (fields : List (String × Json)) : Json

/-- First binding of a key in an object's field list (JS objects have unique
keys, so first = only). -/
def lookupFirst : List (String × Json) → String → Option Json
  | [], _ => none
  | (k, v) :: rest, key => if k == key then some v else lookupFirst rest key

/-- JS property access `j[k]` / `j.k`; `undefined` (`none`) on non-objects.
(Accessing a property of `null` throws in JS; every access modelled here is
either behind `?.` or reached only with non-null receivers.) -/
def jget : Json → String → Option Json
  | .obj fields, k => lookupFirst fields k
  | _, _ => none

/-- JS optional chaining `o?.k`: short-circuits on `undefined` and `null`. -/
def jgetOpt (o : Option Json) (k : String) : Option Json :=
  match o with
  | none => none
  | some j => jget j k

/-- JS truthiness of a defined value. -/
def jsTruthy : Json → Bool
  | .null => false
  | .bool b => b
  | .num n => n != 0
  | .str s => s != ""
  | .arr _ => true
  | .obj _ => true

/-- JS truthiness of a possibly-undefined value. -/
def truthyO : Option Json → Bool
  | none => false
  | some j => jsTruthy j

/-- JS `a || b` on possibly-undefined values: `a` when truthy, else `b`. -/
def jsOr (a b : Option Json) : Option Json :=
  if truthyO a then a else b

mutual

/-- JS string coercion `String(v)` / template-literal interpolation of a
defined value. -/
def jsToString : Json → String
  | .null => "null"
  | .bool b => if b then "true" else "false"
  | .num n => toString n
  | .str s => s
  | .arr elems => String.intercalate "," (jsToStringList elems)
  | .obj _ => "[object Object]"

/-- Coercions of the elements of a JS array (for `Array.prototype.join`). -/
def jsToStringList : List Json → List String
  | [] => []
  | x :: xs => jsToString x :: jsToStringList xs

end

/-- Template-literal interpolation of a possibly-undefined value. -/
def displayU : Option Json → String
  | none => "undefined"
  | some v => jsToString v

/-- Splitting a character list on `','` (`String.prototype.split(',')`):
`""` gives `[""]`, separators at the ends give empty tokens. -/
def splitCommaAux : List Char → List Char → List String
  | [], acc => [String.mk acc.reverse]
  | c :: rest, acc =>
    if c == ',' then String.mk acc.reverse :: splitCommaAux rest []
    else splitCommaAux rest (c :: acc)

/-- JS `s.split(',')`. -/
def jsSplitComma (s : String) : List String :=
  splitCommaAux s.data []

/-- JS `s.trim()` (ASCII whitespace; the claims use only ASCII headers). -/
def jsTrim (s : String) : String :=
  String.mk (((s.data.dropWhile Char.isWhitespace).reverse.dropWhile Char.isWhitespace).reverse)

/-- JS `s.toUpperCase()` (ASCII). -/
def jsToUpper (s : String) : String :=
  String.mk (s.data.map Char.toUpper)

/-- JS `s.toLowerCase()` (ASCII). -/
def jsToLower (s : String) : String :=
  String.mk (s.data.map Char.toLower)

/-- `Object.entries(v)`: an object's own fields in insertion order; an array
or string gives index-keyed entries; other primitives give nothing. -/
def jentries : Json → List (String × Json)
  | .obj fields => fields
  | .arr elems => elems.enum.map (fun p => (toString p.1, p.2))
  | .str s => s.toList.enum.map (fun p => (toString p.1, .str (String.singleton p.2)))
  | _ => []

/-- Elements of a JS array value; `[]` otherwise.  (Calling `.map` on a
truthy non-array throws in JS and would make the enclosing discovery attempt
fail; no claim exercises that corner.) -/
def jarrOf : Option Json → List Json
  | some (.arr elems) => elems
  | _ => []

/-- `xs.includes(s)` for a possibly-undefined candidate array, compared
against a string (with `|| false` folded in: non-arrays give `false`). -/
def jsIncludesStr (o : Option Json) (s : String) : Bool :=
  match o with
  | some (.arr elems) => elems.any (fun x => match x with
      | .str t => t == s
      | _ => false)
  | _ => false

/-! ## Normalized data model (`src/types/index.ts`)

The TS interfaces declare `string`/`boolean` fields, but the normalizer
assigns raw JSON values to them, so fields that receive arbitrary JSON are
given type `Option Json` (`none` = undefined). -/

structure ApiParameter where
  name : Option Json
  type : Option Json
  required : Option Json
  description : Option Json
  format : Option Json
  enum : Option Json
  maxLength : Option Json
  minLength : Option Json

structure ApiSchema where
  type : Option Json
  properties : List (String × ApiParameter)
  required : Option Json

structure ApiRequestBody where
  contentType : String
  schema : ApiSchema

structure ApiEndpoint where
  method : String
  path : String
  fullUrl : String
  description : Json
  parameters : List ApiParameter
  requestBody : Option ApiRequestBody

/-! ## Schema normalizer (`ApiClient.parseParameters` and friends) -/

/-- One element of `ApiClient.parseParameters`'s `map` (apiClient.ts:96-107):
each field prefers the nested `schema` value via JS `||`, falling back to the
flat value, with `'string'` / `false` defaults for `type` / `required`. -/
def parseParam (param : Json) : ApiParameter :=
  let sch := jget param "schema"
  { name := jget param "name"
    type := jsOr (jsOr (jgetOpt sch "type") (jget param "type")) (some (.str "string"))
    required := jsOr (jget param "required") (some (.bool false))
    description := jget param "description"
    format := jsOr (jgetOpt sch "format") (jget param "format")
    enum := jsOr (jgetOpt sch "enum") (jget param "enum")
    maxLength := jsOr (jgetOpt sch "maxLength") (jget param "maxLength")
    minLength := jsOr (jgetOpt sch "minLength") (jget param "minLength") }

/-- `ApiClient.parseParameters` (apiClient.ts:96-107). -/
def parseParameters (params : List Json) : List ApiParameter :=
  params.map parseParam

/-- JS `a ?? b` (nullish coalescing): `b` only when `a` is undefined or null. -/
def nullishOr (a b : Option Json) : Option Json :=
  match a with
  | none => b
  | some .null => b
  | some v => some v

/-- The parameter-normalization rule exactly as the spec words it
(`schema.type ?? type ?? 'string'`, nullish coalescing, and likewise for
format/enum/maxLength/minLength); stated for comparison with `parseParam`,
which is the code's rule. -/
def parseParamNullishRule (param : Json) : ApiParameter :=
  let sch := jget param "schema"
  { name := jget param "name"
    type := nullishOr (nullishOr (jgetOpt sch "type") (jget param "type")) (some (.str "string"))
    required := jsOr (jget param "required") (some (.bool false))
    description := jget param "description"
    format := nullishOr (jgetOpt sch "format") (jget param "format")
    enum := nullishOr (jgetOpt sch "enum") (jget param "enum")
    maxLength := nullishOr (jgetOpt sch "maxLength") (jget param "maxLength")
    minLength := nullishOr (jgetOpt sch "minLength") (jget param "minLength") }

/-- `ApiClient.parseSchema` (apiClient.ts:123-146). -/
def parseSchema (schema : Json) : ApiSchema :=
  let props : List (String × ApiParameter) :=
    if truthyO (jget schema "properties") then
      (jentries ((jget schema "properties").getD .null)).map (fun nv =>
        (nv.1,
          { name := some (.str nv.1)
            type := jsOr (jget nv.2 "type") (some (.str "string"))
            required := some (.bool (jsIncludesStr (jget schema "required") nv.1))
            description := jget nv.2 "description"
            format := jget nv.2 "format"
            enum := jget nv.2 "enum"
            maxLength := jget nv.2 "maxLength"
            minLength := jget nv.2 "minLength" }))
    else []
  { type := jsOr (jget schema "type") (some (.str "object"))
    properties := props
    required := jsOr (jget schema "required") (some (.arr [])) }

/-- `ApiClient.parseRequestBody` (apiClient.ts:109-121): first content-type
key in natural order (`|| 'application/json'` also replaces an empty-string
key, JS `||` being falsy-sensitive), then the schema under it. -/
def parseRequestBody (requestBody : Json) : Option ApiRequestBody :=
  let contentKeys := (jentries ((jsOr (jget requestBody "content") (some (.obj []))).getD (.obj []))).map (fun kv => kv.1)
  let contentType :=
    match contentKeys.head? with
    | some k => if k != "" then k else "application/json"
    | none => "application/json"
  let schemaV := jgetOpt (jgetOpt (jget requestBody "content") contentType) "schema"
  if truthyO schemaV then
    some { contentType := contentType, schema := parseSchema (schemaV.getD .null) }
  else none

/-- `ApiClient.parseOpenApiSpec` (apiClient.ts:68-94). -/
def parseOpenApiSpec (baseUrl : String) (spec : Json) : List ApiEndpoint :=
  let basePath := jsToString ((jsOr (jget spec "basePath") (some (.str ""))).getD (.str ""))
  if truthyO (jget spec "paths") then
    (jentries ((jget spec "paths").getD .null)).flatMap (fun pkv =>
      (jentries pkv.2).filterMap (fun mkv =>
        if ["get", "post", "put", "delete"].contains (jsToLower mkv.1) then
          some
            { method := jsToUpper mkv.1
              path := basePath ++ pkv.1
              fullUrl := baseUrl ++ basePath ++ pkv.1
              description :=
                ((jsOr (jsOr (jget mkv.2 "summary") (jget mkv.2 "description"))
                  (some (.str (jsToUpper mkv.1 ++ " " ++ pkv.1)))).getD .null)
              parameters := parseParameters (jarrOf (jsOr (jget mkv.2 "parameters") (some (.arr []))))
              requestBody :=
                if truthyO (jget mkv.2 "requestBody") then
                  parseRequestBody ((jget mkv.2 "requestBody").getD .null)
                else none }
        else none))
  else []

/-! ## Endpoint discovery (`ApiClient.discoverEndpoints`,
`ApiClient.discoverEndpointsManually`)

The HTTP environment is a function from the requested URL to the outcome of
the request.  `FetchResult.netFail` is a thrown network error (swallowed by
the per-URL `catch`); `FetchResult.resp ok body` is a response with its
`response.ok` flag and its JSON body (the body of a successful documentation
probe is fed to `response.json()` and then to the normalizer). -/

inductive FetchResult where
  | netFail (msg : String)
  | resp (ok : Bool) (body : Json)

/-- Outcome of an `OPTIONS` probe: `allow` is `headers.get('Allow')`
(`none` when the header is absent, which `.get` reports as `null`). -/
inductive OptFetchResult where
  | netFail (msg : String)
  | resp (ok : Bool) (allow : Option String)

def isOkF : FetchResult → Bool
  | .resp true _ => true
  | _ => false

/-- The fixed documentation-URL priority list (apiClient.ts:44-50). -/
def swaggerUrls (baseUrl : String) : List String :=
  [baseUrl ++ "/swagger.json",
   baseUrl ++ "/api-docs",
   baseUrl ++ "/openapi.json",
   baseUrl ++ "/v2/api-docs",
   baseUrl ++ "/swagger/v1/swagger.json"]

/-- The conventional API-root paths probed by heuristic discovery
(apiClient.ts:150-156). -/
def commonPaths : List String :=
  ["/api/v1", "/odata/v4", "/rest/v1", "/services", "/data"]

def httpMethods : List String := ["GET", "POST", "PUT", "DELETE"]

/-- The documentation-probe loop (apiClient.ts:52-62): try each URL in
order, return the body of the first `ok` response; record attempted URLs. -/
def tryUrls (probe : String → FetchResult) : List String → List String × Option Json
  | [] => ([], none)
  | u :: rest =>
    match probe u with
    | .resp true body => ([u], some body)
    | _ =>
      let r := tryUrls probe rest
      (u :: r.1, r.2)

/-- The per-path body of `ApiClient.discoverEndpointsManually`'s loop
(apiClient.ts:160-186): on an `ok` OPTIONS response, split the `Allow`
header on commas, trim and uppercase each token, and synthesize one
parameterless endpoint per token among the four supported methods. -/
def manualEndpointsFor (baseUrl path : String) (r : OptFetchResult) : List ApiEndpoint :=
  match r with
  | .resp true allow =>
    ((jsSplitComma (allow.getD "")).map (fun m => jsToUpper (jsTrim m))).filterMap (fun method =>
      if httpMethods.contains method then
        some { method := method
               path := path
               fullUrl := baseUrl ++ path
               description := .str (method ++ " endpoint at " ++ path)
               parameters := []
               requestBody := none }
      else none)
  | _ => []

/-- `ApiClient.discoverEndpointsManually` (apiClient.ts:148-189), also
returning the list of URLs actually probed.  Every conventional path is
probed; a success never short-circuits the loop. -/
def discoverEndpointsManually (baseUrl : String) (optProbe : String → OptFetchResult) :
    List String → List ApiEndpoint × List String
  | [] => ([], [])
  | p :: rest =>
    let url := baseUrl ++ p
    let here := manualEndpointsFor baseUrl p (optProbe url)
    let r := discoverEndpointsManually baseUrl optProbe rest
    (here ++ r.1, url :: r.2)

/-- `ApiClient.discoverEndpoints` (apiClient.ts:40-66), returning the
endpoints, the documentation URLs attempted (in order) and whether the
heuristic fallback ran. -/
def discoverEndpoints (baseUrl : String) (probe : String → FetchResult)
    (optProbe : String → OptFetchResult) : List ApiEndpoint × List String × Bool :=
  let t := tryUrls probe (swaggerUrls baseUrl)
  match t.2 with
  | some body => (parseOpenApiSpec baseUrl body, t.1, false)
  | none => ((discoverEndpointsManually baseUrl optProbe commonPaths).1, t.1, true)

/-! ## Data mapping (`DataMapping.tsx`) -/

structure FieldMapping where
  spreadsheetColumn : String
  apiField : String
  transform : Option String

/-- JS strict equality `s === v` between a known string and an arbitrary
(possibly undefined) value. -/
def strictEqStrJ (s : String) : Option Json → Bool
  | some (.str t) => s == t
  | _ => false

/-- `apiFields` (DataMapping.tsx:22-38): the endpoint's parameters followed
by its body-schema properties.  The source pushes `{name, ...field}`; the
spread comes second, so the pushed record is the property value itself. -/
def apiFields (e : ApiEndpoint) : List ApiParameter :=
  e.parameters ++
    (match e.requestBody with
     | some rb => rb.schema.properties.map (fun nv => nv.2)
     | none => [])

/-- `validateMappings` (DataMapping.tsx:72-84): one error line per required
field that has no mapping. -/
def validateMappings (fields : List ApiParameter) (mappings : List FieldMapping) :
    List String :=
  (fields.filter (fun f => truthyO f.required)).filterMap (fun f =>
    match mappings.find? (fun m => strictEqStrJ m.apiField f.name) with
    | some _ => none
    | none => some ("Required field \"" ++ displayU f.name ++ "\" is not mapped"))

/-- `handleComplete` (DataMapping.tsx:86-91): invoke the completion callback
(modelled by returning `some mappings`) exactly when validation passes. -/
def handleComplete (fields : List ApiParameter) (mappings : List FieldMapping) :
    Option (List FieldMapping) :=
  if validateMappings fields mappings = [] then some mappings else none

/-! ## Submission pipeline (`SubmissionResults.tsx`)

A spreadsheet row and a request payload are JS objects whose values may be
undefined: `Obj := List (String × Option Json)`.

React semantics modelled faithfully: an invocation of `startSubmission`
closes over the state values of the render that created it (`isPaused`,
`currentRow`, `results` are immutable snapshot constants inside the running
async function), while the `setXxx` calls update the component's real state.
`setResults` is always called with a functional updater, so the real result
list evolves correctly; the loop's `if (isPaused) break` and the final
`currentRow >= rows.length - 1` check and `onSubmissionComplete(results)`
argument all read the stale snapshot. -/

abbrev Obj := List (String × Option Json)

/-- JS property read `o[k]` on an `Obj` (missing key gives undefined). -/
def objGetU : Obj → String → Option Json
  | [], _ => none
  | (k, v) :: rest, key => if k == key then v else objGetU rest key

/-- JS property write `o[k] = v` (overwrites in place, else appends). -/
def objSet : Obj → String → Option Json → Obj
  | [], k, v => [(k, v)]
  | (k0, v0) :: rest, k, v =>
    if k0 == k then (k0, v) :: rest else (k0, v0) :: objSet rest k v

inductive SubStatus where
  | pending
  | success
  | error
deriving DecidableEq

structure SubmissionResult where
  rowIndex : Nat
  status : SubStatus
  response : Option Json
  error : Option String
  payload : Option Obj

/-- Result initialization (SubmissionResults.tsx:27-34): one `pending`
entry per row. -/
def initResults (n : Nat) : List SubmissionResult :=
  (List.range n).map (fun i =>
    { rowIndex := i, status := .pending, response := none, error := none, payload := none })

/-- `generatePayload` (SubmissionResults.tsx:36-46). -/
def generatePayload (rows : List Obj) (mappings : List FieldMapping) (i : Nat) : Obj :=
  mappings.foldl (fun payload m =>
    objSet payload m.apiField (objGetU (rows.getD i []) m.spreadsheetColumn)) []

/-- What the environment does with row `i`'s request: a parsed 2xx body, a
non-2xx status/statusText, or a thrown network error. -/
inductive RowOutcome where
  | ok (body : Json)
  | httpErr (status : Nat) (statusText : String)
  | netErr (msg : String)

/-- First functional update in `submitRow` (SubmissionResults.tsx:51-55):
record the payload before the response arrives. -/
def markStarted (i : Nat) (pay : Obj) (rs : List SubmissionResult) : List SubmissionResult :=
  rs.map (fun r =>
    if r.rowIndex == i then { r with status := .pending, payload := some pay } else r)

/-- Second functional update in `submitRow` (SubmissionResults.tsx:57-81):
record the row's final success/error outcome. -/
def applyOutcome (i : Nat) (o : RowOutcome) (rs : List SubmissionResult) : List SubmissionResult :=
  rs.map (fun r =>
    if r.rowIndex == i then
      match o with
      | .ok body => { r with status := .success, response := some body, error := none }
      | .httpErr s st =>
        { r with status := .error, response := some .null, error := some s!"HTTP {s}: {st}" }
      | .netErr m => { r with status := .error, error := some m }
    else r)

/-- `submitRow` (SubmissionResults.tsx:48-82) as a transformation of the
real result list. -/
def submitRowUpd (rows : List Obj) (mappings : List FieldMapping)
    (outcome : Nat → RowOutcome) (i : Nat) (rs : List SubmissionResult) :
    List SubmissionResult :=
  applyOutcome i (outcome i) (markStarted i (generatePayload rows mappings i) rs)

/-- The component's real state. -/
structure CompState where
  results : List SubmissionResult
  isRunning : Bool
  isPaused : Bool
  currentRow : Nat

def initCompState (n : Nat) : CompState :=
  { results := initResults n, isRunning := false, isPaused := false, currentRow := 0 }

/-- The `for` loop of `startSubmission` (SubmissionResults.tsx:88-96).
`snapPaused` is the invocation's captured `isPaused` — a constant, since the
closure's `const` binding never changes, so the `if (isPaused) break` test
reads the same value on every iteration.  `pauseClick i` says whether a
pause click is delivered while row `i`'s request or delay is awaited; it
updates only the real `isPaused`/`isRunning` state.  Returns the final real
state and the rows processed, in order.  Fuel is the number of remaining
iterations (`rows.length - i`). -/
def subLoop (rows : List Obj) (mappings : List FieldMapping) (outcome : Nat → RowOutcome)
    (snapPaused : Bool) (pauseClick : Nat → Bool) :
    Nat → Nat → CompState → CompState × List Nat
  | 0, _, st => (st, [])
  | fuel + 1, i, st =>
    if snapPaused then (st, [])
    else
      let st1 := { st with currentRow := i,
                           results := submitRowUpd rows mappings outcome i st.results }
      let st2 := if pauseClick i then { st1 with isPaused := true, isRunning := false } else st1
      let r := subLoop rows mappings outcome snapPaused pauseClick fuel (i + 1) st2
      (r.1, i :: r.2)

/-- `startSubmission` (SubmissionResults.tsx:84-103).  `snap` is the state
captured by the invoked closure (at click time it equals the committed real
state), `real` the component state it mutates.  Returns the final real
state, the processed rows, and the argument passed to
`onSubmissionComplete` (`none` when the callback is not invoked).  The
completion test and the reported list both use the stale snapshot, exactly
as the source closure does. -/
def startSubmission (rows : List Obj) (mappings : List FieldMapping)
    (outcome : Nat → RowOutcome) (pauseClick : Nat → Bool) (snap real : CompState) :
    CompState × List Nat × Option (List SubmissionResult) :=
  let n := rows.length
  let r0 := { real with isRunning := true, isPaused := false }
  let r1 := subLoop rows mappings outcome snap.isPaused pauseClick (n - snap.currentRow)
              snap.currentRow r0
  let r2 := { r1.1 with isRunning := false }
  let reported := if n - 1 ≤ snap.currentRow then some snap.results else none
  (r2, r1.2, reported)

/-- The pure result-list effect of running the loop over rows
`lo, lo+1, …, lo+fuel-1` (used to reason about `subLoop`). -/
def processRange (rows : List Obj) (mappings : List FieldMapping)
    (outcome : Nat → RowOutcome) : Nat → Nat → List SubmissionResult → List SubmissionResult
  | _, 0, rs => rs
  | lo, fuel + 1, rs =>
    processRange rows mappings outcome (lo + 1) fuel (submitRowUpd rows mappings outcome lo rs)

/-! ## Verification pipeline (`DataVerification.tsx`) -/

inductive VerStatus where
  | verified
  | mismatch
  | not_found
  | error
deriving DecidableEq

structure VerificationResult where
  rowIndex : Nat
  submitted : Obj
  retrieved : Option Json
  status : VerStatus
  error : Option String

/-- JS strict equality `a !== b` negated, between two possibly-undefined
values.  Arrays and objects compare by reference in JS; the retrieved value
is always freshly parsed from the verification response while the submitted
value was built earlier from the spreadsheet, so two composite values are
never the same reference and compare unequal. -/
def strictEqU : Option Json → Option Json → Bool
  | none, none => true
  | some .null, some .null => true
  | some (.bool a), some (.bool b) => a == b
  | some (.num a), some (.num b) => a == b
  | some (.str a), some (.str b) => a == b
  | _, _ => false

/-- `compareData` (DataVerification.tsx:118-126): every key of the
submitted payload must be strictly equal to the retrieved value at the same
key; keys only present in `retrieved` are never examined. -/
def compareData (submitted : Obj) (retrieved : Json) : Bool :=
  submitted.all (fun kv => strictEqU (jget retrieved kv.1) kv.2)

/-- A verification GET's outcome: a thrown network error, or a response
with status, statusText and parsed JSON body. -/
inductive VerResponse where
  | netRaise (msg : String)
  | resp (status : Nat) (statusText : String) (body : Json)

/-- `response.ok` of the fetch API: status in 200..299. -/
def respOk (s : Nat) : Bool := 200 ≤ s && s ≤ 299

/-- The response-handling branches of `startVerification`
(DataVerification.tsx:67-111), as the update they apply to the row's
verification entry. -/
def verifyRowUpd (prev : VerificationResult) (r : VerResponse) : VerificationResult :=
  match r with
  | .resp s st body =>
    if respOk s then
      { prev with
        status := if compareData prev.submitted body then .verified else .mismatch
        retrieved := some body
        error := none }
    else if s == 404 then
      { prev with status := .not_found, error := some "Record not found" }
    else
      { prev with status := .error, error := some s!"HTTP {s}: {st}" }
  | .netRaise m => { prev with status := .error, error := some m }

/-- `result.payload?.id`-style access: optional chaining on a possibly
missing payload object. -/
def objGetOpt (p : Option Obj) (k : String) : Option Json :=
  match p with
  | some o => objGetU o k
  | none => none

/-- Identifier extraction (DataVerification.tsx:54):
`result.response?.id || result.response?.ID || result.payload?.id`. -/
def extractIdentifier (response : Option Json) (payload : Option Obj) : Option Json :=
  jsOr (jsOr (jgetOpt response "id") (jgetOpt response "ID")) (objGetOpt payload "id")

/-- One iteration of the `startVerification` loop (DataVerification.tsx:
51-113) for a successful submission: extract the identifier; if it is falsy,
mark the row `error` with "No identifier found in response" and issue no
request; otherwise GET `{getEndpointUrl}/{identifier}` and apply the
response branches.  Returns the updated entry and the GET URLs issued. -/
def verifyRowRun (getUrl : String) (prev : VerificationResult)
    (response : Option Json) (payload : Option Obj) (env : String → VerResponse) :
    VerificationResult × List String :=
  let identifier := extractIdentifier response payload
  if truthyO identifier then
    let url := getUrl ++ "/" ++ jsToString (identifier.getD .null)
    (verifyRowUpd prev (env url), [url])
  else
    ({ prev with status := .error, error := some "No identifier found in response" }, [])

/-- Does an object value carry the key `k` (regardless of the bound
value)? -/
def hasKeyOpt (o : Option Json) (k : String) : Bool :=
  match o with
  | some (.obj fields) => fields.any (fun kv => kv.1 == k)
  | _ => false

/-- The `rowIndex` sequence of a result list. -/
def rowIndexes (rs : List SubmissionResult) : List Nat :=
  rs.map (fun r => r.rowIndex)

/-! ## Concrete fixtures used by witnesses and counterexamples -/

/-- A parameter with a present-but-falsy nested `schema.minLength` (`0`) and
a truthy flat `minLength` (`5`): distinguishes JS `||` from `??`. -/
def c1FalsyNestedParam : Json :=
  .obj [("name", .str "p"), ("minLength", .num 5),
        ("schema", .obj [("minLength", .num 0)])]

/-- The spec's own example: flat `type: "number"` with nested
`schema: {type: "string"}`. -/
def c1ExampleParam : Json :=
  .obj [("name", .str "p"), ("type", .str "number"),
        ("schema", .obj [("type", .str "string")])]

def c4Probe : String → FetchResult := fun u =>
  if u == "http://h/openapi.json" then .resp true (.obj []) else .netFail "down"

def c4OptProbe : String → OptFetchResult := fun _ => .netFail "down"

def c5OptProbe : String → OptFetchResult := fun u =>
  if u == "http://h/services" then .resp true (some "GET, PATCH, post") else .resp false none

/-- A two-row spreadsheet (rows may be empty objects; only their count
matters to the pipeline's control flow). -/
def c2Rows : List Obj := [[], []]

/-- Every request succeeds with an empty-object body. -/
def c2Outcome : Nat → RowOutcome := fun _ => .ok (.obj [])

/-- A pause click delivered while row 0's request is awaited. -/
def c2PauseAtZero : Nat → Bool := fun i => i == 0

/-- No pause click at all. -/
def noPause : Nat → Bool := fun _ => false

def c7Param : ApiParameter :=
  { name := some (.str "email"), type := some (.str "string"),
    required := some (.bool true), description := none, format := none,
    enum := none, maxLength := none, minLength := none }

def c7Endpoint : ApiEndpoint :=
  { method := "POST", path := "/users", fullUrl := "http://h/users",
    description := .str "create user", parameters := [c7Param], requestBody := none }

def c7Mapping : FieldMapping :=
  { spreadsheetColumn := "email", apiField := "email", transform := some "" }

/-- The spec's example payload `{a: 1, b: 2}`. -/
def c8Submitted : Obj := [("a", some (.num 1)), ("b", some (.num 2))]

/-- An initialized verification entry for row 0 with that payload. -/
def c8Prev : VerificationResult :=
  { rowIndex := 0, submitted := c8Submitted, retrieved := none,
    status := .error, error := some "Verification not started" }

/-! ## General lemmas -/

theorem jsOr_assoc_default (a b c : Option Json) :
    jsOr (jsOr a b) c = if truthyO a then a else if truthyO b then b else c := by
  by_cases h : truthyO a <;> simp [jsOr, h]

theorem tryUrls_cons_notOk (probe : String → FetchResult) (u : String) (rest : List String)
    (h : isOkF (probe u) = false) :
    tryUrls probe (u :: rest) =
      (u :: (tryUrls probe rest).1, (tryUrls probe rest).2) := by
  cases hp : probe u with
  | netFail m => simp [tryUrls, hp]
  | resp ok b =>
    cases ok
    · simp [tryUrls, hp]
    · rw [hp] at h
      simp [isOkF] at h

theorem tryUrls_cons_ok (probe : String → FetchResult) (u : String) (rest : List String)
    (body : Json) (h : probe u = .resp true body) :
    tryUrls probe (u :: rest) = ([u], some body) := by
  simp [tryUrls, h]

/-! ## Claim C1 -/

/-- Claim C1, counterexample: the claim's rule is nullish coalescing
(`schema.minLength ?? minLength`), but on a parameter whose nested
`schema.minLength` is the falsy-but-present value `0` (with flat
`minLength: 5`) the code's JS `||` skips the nested value and normalizes to
`5`, while the claimed `??` rule yields `0`. -/
theorem claim1_nullish_rule_counterexample :
    (parseParam c1FalsyNestedParam).minLength = some (.num 5) ∧
    (parseParamNullishRule c1FalsyNestedParam).minLength = some (.num 0) ∧
    (parseParam c1FalsyNestedParam).minLength ≠
      (parseParamNullishRule c1FalsyNestedParam).minLength := by
  refine ⟨rfl, rfl, ?_⟩
  intro h
  rw [show (parseParam c1FalsyNestedParam).minLength = some (.num 5) from rfl,
      show (parseParamNullishRule c1FalsyNestedParam).minLength = some (.num 0) from rfl] at h
  injection h with h
  injection h with h
  exact absurd h (by decide)

/-- Claim C1, amended: the normalizer derives type, format, enum, maxLength
and minLength by the JS `||` rule — prefer the nested `schema` value when it
is truthy, else the flat value (for type: else the default `"string"`), so a
present-but-falsy nested value is skipped in favour of the flat one; the
in-particular example (flat `type: "number"`, nested
`schema: {type: "string"}`) normalizes to `"string"`. -/
theorem claim1_truthy_fallback_rule (param : Json) :
    (parseParam param).type =
      (if truthyO (jgetOpt (jget param "schema") "type") then
        jgetOpt (jget param "schema") "type"
       else if truthyO (jget param "type") then jget param "type"
       else some (.str "string")) ∧
    (parseParam param).format =
      (if truthyO (jgetOpt (jget param "schema") "format") then
        jgetOpt (jget param "schema") "format"
       else jget param "format") ∧
    (parseParam param).enum =
      (if truthyO (jgetOpt (jget param "schema") "enum") then
        jgetOpt (jget param "schema") "enum"
       else jget param "enum") ∧
    (parseParam param).maxLength =
      (if truthyO (jgetOpt (jget param "schema") "maxLength") then
        jgetOpt (jget param "schema") "maxLength"
       else jget param "maxLength") ∧
    (parseParam param).minLength =
      (if truthyO (jgetOpt (jget param "schema") "minLength") then
        jgetOpt (jget param "schema") "minLength"
       else jget param "minLength") ∧
    (parseParam c1ExampleParam).type = some (.str "string") :=
  ⟨jsOr_assoc_default _ _ _, rfl, rfl, rfl, rfl, rfl⟩

/-! ## Claim C4 -/

/-- Claim C4: when the first two documentation probes fail (network error or
non-2xx) and the third returns a successful response, discovery attempts
exactly the first three URLs in priority order, immediately returns the
normalized endpoints parsed from the third document, and never invokes the
heuristic OPTIONS fallback. -/
theorem claim4_doc_priority (baseUrl : String) (probe : String → FetchResult)
    (optProbe : String → OptFetchResult) (body : Json)
    (h0 : isOkF (probe (baseUrl ++ "/swagger.json")) = false)
    (h1 : isOkF (probe (baseUrl ++ "/api-docs")) = false)
    (h2 : probe (baseUrl ++ "/openapi.json") = .resp true body) :
    discoverEndpoints baseUrl probe optProbe =
      (parseOpenApiSpec baseUrl body,
       [baseUrl ++ "/swagger.json", baseUrl ++ "/api-docs", baseUrl ++ "/openapi.json"],
       false) := by
  have ht : tryUrls probe (swaggerUrls baseUrl) =
      ([baseUrl ++ "/swagger.json", baseUrl ++ "/api-docs", baseUrl ++ "/openapi.json"],
       some body) := by
    rw [swaggerUrls, tryUrls_cons_notOk probe _ _ h0, tryUrls_cons_notOk probe _ _ h1,
        tryUrls_cons_ok probe _ _ body h2]
  simp [discoverEndpoints, ht]

/-- Claim C4, witness: a concrete environment where only the third
documentation URL answers successfully. -/
theorem claim4_doc_priority_witness :
    discoverEndpoints "http://h" c4Probe c4OptProbe =
      (parseOpenApiSpec "http://h" (.obj []),
       ["http://h/swagger.json", "http://h/api-docs", "http://h/openapi.json"],
       false) :=
  claim4_doc_priority "http://h" c4Probe c4OptProbe (.obj []) rfl rfl rfl

/-! ## Claim C5 -/

/-- Claim C5: heuristic discovery probes all five conventional paths in
order (an earlier success never short-circuits the loop), and its endpoint
list is exactly the per-path concatenation of the per-token synthesis; every
synthesized endpoint is parameterless, has one of the four supported
methods (tokens outside them yield no endpoint), and carries the generated
description `"{METHOD} endpoint at {path}"`. -/
theorem claim5_heuristic_discovery (baseUrl : String) (optProbe : String → OptFetchResult) :
    (discoverEndpointsManually baseUrl optProbe commonPaths).2 =
      commonPaths.map (fun p => baseUrl ++ p) ∧
    (discoverEndpointsManually baseUrl optProbe commonPaths).1 =
      commonPaths.flatMap (fun p => manualEndpointsFor baseUrl p (optProbe (baseUrl ++ p))) ∧
    (∀ path r, ∀ e ∈ manualEndpointsFor baseUrl path r,
      httpMethods.contains e.method = true ∧
      e.parameters = [] ∧ e.requestBody = none ∧
      e.description = .str (e.method ++ " endpoint at " ++ path) ∧
      e.path = path ∧ e.fullUrl = baseUrl ++ path) := by
  refine ⟨rfl, rfl, ?_⟩
  intro path r e he
  cases r with
  | netFail m => simp [manualEndpointsFor] at he
  | resp ok allow =>
    cases ok
    · simp [manualEndpointsFor] at he
    · simp only [manualEndpointsFor] at he
      rw [List.mem_filterMap] at he
      obtain ⟨m, _, hfm⟩ := he
      by_cases hc : httpMethods.contains m = true
      · rw [if_pos hc] at hfm
        injection hfm with hfm
        subst hfm
        exact ⟨hc, rfl, rfl, rfl, rfl, rfl⟩
      · rw [if_neg hc] at hfm
        exact absurd hfm (by simp)

/-- Claim C5, witness: with only `/services` answering (Allow header
`"GET, PATCH, post"`), the synthesized GET endpoint has the claimed shape;
the `PATCH` token yields no endpoint, so only GET and POST appear. -/
theorem claim5_heuristic_discovery_witness :
    httpMethods.contains "GET" = true ∧
    ([] : List ApiParameter) = [] ∧ (none : Option ApiRequestBody) = none ∧
    (Json.str "GET endpoint at /services" : Json) = .str ("GET" ++ " endpoint at " ++ "/services") ∧
    "/services" = "/services" ∧ "http://h/services" = "http://h" ++ "/services" := by
  have h := (claim5_heuristic_discovery "http://h" c5OptProbe).2.2 "/services"
    (c5OptProbe ("http://h" ++ "/services"))
    { method := "GET", path := "/services", fullUrl := "http://h/services",
      description := .str "GET endpoint at /services", parameters := [], requestBody := none }
    (List.mem_cons_self _ _)
  exact h

/-! ## Claim C7 -/

/-- Claim C7: mapping completion is gated on required fields.  Validation
passes exactly when every required field (parameter or body-schema property,
as collected by `apiFields`) has a mapping; when a required field has no
mapping, an error naming it is produced; and the completion callback fires
exactly when validation passes. -/
theorem claim7_required_fields_gate (e : ApiEndpoint) (mappings : List FieldMapping) :
    (validateMappings (apiFields e) mappings = [] ↔
      ∀ f ∈ apiFields e, truthyO f.required = true →
        ∃ m ∈ mappings, strictEqStrJ m.apiField f.name = true) ∧
    (∀ f ∈ apiFields e, truthyO f.required = true →
      mappings.find? (fun m => strictEqStrJ m.apiField f.name) = none →
      ("Required field \"" ++ displayU f.name ++ "\" is not mapped") ∈
        validateMappings (apiFields e) mappings) ∧
    (handleComplete (apiFields e) mappings = some mappings ↔
      validateMappings (apiFields e) mappings = []) := by
  refine ⟨?_, ?_, ?_⟩
  · rw [validateMappings, List.filterMap_eq_nil_iff]
    constructor
    · intro h f hf hreq
      have hmem : f ∈ (apiFields e).filter (fun f => truthyO f.required) :=
        List.mem_filter.mpr ⟨hf, hreq⟩
      have := h f hmem
      cases hfind : mappings.find? (fun m => strictEqStrJ m.apiField f.name) with
      | none => rw [hfind] at this; exact absurd this (by simp)
      | some m =>
        have hm := List.find?_some hfind
        exact ⟨m, List.mem_of_find?_eq_some hfind, hm⟩
    · intro h f hf
      have ⟨hfe, hreq⟩ := List.mem_filter.mp hf
      obtain ⟨m, hmem, hpred⟩ := h f hfe hreq
      cases hfind : mappings.find? (fun m => strictEqStrJ m.apiField f.name) with
      | none =>
        have := List.find?_eq_none.mp hfind m hmem
        exact absurd hpred this
      | some m2 => simp
  · intro f hf hreq hfind
    rw [validateMappings]
    refine List.mem_filterMap.mpr ⟨f, List.mem_filter.mpr ⟨hf, hreq⟩, ?_⟩
    rw [hfind]
  · rw [handleComplete]
    split
    · simp_all
    · simp_all

/-- Claim C7, witness: an endpoint whose single required field `email` is
mapped passes validation. -/
theorem claim7_required_fields_gate_witness :
    validateMappings (apiFields c7Endpoint) [c7Mapping] = [] :=
  (claim7_required_fields_gate c7Endpoint [c7Mapping]).1.mpr (by
    intro f hf hreq
    have hfe : f = c7Param := by
      simpa [apiFields, c7Endpoint] using hf
    subst hfe
    exact ⟨c7Mapping, List.mem_cons_self _ _, rfl⟩)

/-! ## Claim C8 -/

/-- Claim C8: on a 2xx verification response the row is `verified` iff every
key of the submitted payload is strictly equal to the retrieved value at
that key, and `mismatch` otherwise (with the retrieved body attached);
extra retrieved-only fields never cause a mismatch, as the spec's two
examples show concretely. -/
theorem claim8_shallow_containment (prev : VerificationResult) (s : Nat) (st : String)
    (body : Json) (hok : respOk s = true) :
    ((verifyRowUpd prev (.resp s st body)).status = .verified ↔
      ∀ kv ∈ prev.submitted, strictEqU (jget body kv.1) kv.2 = true) ∧
    ((verifyRowUpd prev (.resp s st body)).status = .mismatch ↔
      ¬ ∀ kv ∈ prev.submitted, strictEqU (jget body kv.1) kv.2 = true) ∧
    (verifyRowUpd prev (.resp s st body)).retrieved = some body ∧
    compareData c8Submitted (.obj [("a", .num 1), ("b", .num 2), ("c", .num 99)]) = true ∧
    compareData c8Submitted (.obj [("a", .num 1), ("b", .num 3)]) = false := by
  have hall : compareData prev.submitted body = true ↔
      ∀ kv ∈ prev.submitted, strictEqU (jget body kv.1) kv.2 = true := by
    simp [compareData, List.all_eq_true]
  refine ⟨?_, ?_, ?_, rfl, rfl⟩
  · rw [← hall]
    by_cases hc : compareData prev.submitted body <;> simp [verifyRowUpd, hok, hc]
  · rw [← hall]
    by_cases hc : compareData prev.submitted body <;> simp [verifyRowUpd, hok, hc]
  · simp [verifyRowUpd, hok]

/-- Claim C8, witness: submitted `{a:1, b:2}` against retrieved
`{a:1, b:2, c:99}` on a 200 response yields `verified`. -/
theorem claim8_shallow_containment_witness :
    (verifyRowUpd c8Prev (.resp 200 "OK" (.obj [("a", .num 1), ("b", .num 2), ("c", .num 99)]))).status
      = .verified :=
  (claim8_shallow_containment c8Prev 200 "OK"
      (.obj [("a", .num 1), ("b", .num 2), ("c", .num 99)]) (by decide)).1.mpr (by
    intro kv hkv
    have : kv = ("a", some (.num 1)) ∨ kv = ("b", some (.num 2)) := by
      simpa [c8Prev, c8Submitted] using hkv
    rcases this with rfl | rfl <;> rfl)

/-! ## Claim C9 -/

/-- Claim C9: a non-2xx verification response with status 404 yields
`not_found` (never `error`), while any other non-2xx status yields `error`
with message `"HTTP {status}: {statusText}"`. -/
theorem claim9_notfound_vs_error (prev : VerificationResult) (s : Nat) (st : String)
    (body : Json) (hnok : respOk s = false) :
    (s = 404 → (verifyRowUpd prev (.resp s st body)).status = .not_found ∧
      (verifyRowUpd prev (.resp s st body)).status ≠ .error) ∧
    (s ≠ 404 → (verifyRowUpd prev (.resp s st body)).status = .error ∧
      (verifyRowUpd prev (.resp s st body)).error = some s!"HTTP {s}: {st}") := by
  constructor
  · rintro rfl
    constructor <;> simp [verifyRowUpd, hnok]
  · intro hne
    have hbeq : (s == 404) = false := by simpa using hne
    constructor <;> simp [verifyRowUpd, hnok, hbeq]

/-- Claim C9, witness: a 404 yields `not_found`; a 500 yields `error` with
the formatted message. -/
theorem claim9_notfound_vs_error_witness :
    (verifyRowUpd c8Prev (.resp 404 "Not Found" .null)).status = .not_found ∧
    (verifyRowUpd c8Prev (.resp 500 "Internal Server Error" .null)).error =
      some "HTTP 500: Internal Server Error" :=
  ⟨((claim9_notfound_vs_error c8Prev 404 "Not Found" .null (by decide)).1 rfl).1,
   ((claim9_notfound_vs_error c8Prev 500 "Internal Server Error" .null (by decide)).2
      (by decide)).2⟩

/-! ## Claim C10 -/

/-- Claim C10: when the submission response's `id` and `ID` are falsy and
the payload has no truthy `id`, the identifier is treated as absent — the
row's entry is marked `error` with "No identifier found in response" and no
verification GET is issued, even though an identifier field is present in
the response. -/
theorem claim10_falsy_identifier_skipped (getUrl : String) (prev : VerificationResult)
    (response : Option Json) (payload : Option Obj) (env : String → VerResponse)
    (_hcarries : hasKeyOpt response "id" = true ∨ hasKeyOpt response "ID" = true)
    (hid : truthyO (jgetOpt response "id") = false)
    (hID : truthyO (jgetOpt response "ID") = false)
    (hpay : truthyO (objGetOpt payload "id") = false) :
    verifyRowRun getUrl prev response payload env =
      ({ prev with status := .error, error := some "No identifier found in response" }, []) := by
  have hext : truthyO (extractIdentifier response payload) = false := by
    simp [extractIdentifier, jsOr, hid, hID, hpay]
  simp [verifyRowRun, hext]

/-- Claim C10, witness: a response carrying `id: 0` (falsy) with no payload
identifier is marked `error` and triggers no GET. -/
theorem claim10_falsy_identifier_skipped_witness :
    verifyRowRun "http://h/users" c8Prev (some (.obj [("id", .num 0)])) none
        (fun _ => .netRaise "boom") =
      ({ c8Prev with status := .error, error := some "No identifier found in response" }, []) :=
  claim10_falsy_identifier_skipped "http://h/users" c8Prev (some (.obj [("id", .num 0)])) none
    (fun _ => .netRaise "boom") (Or.inl rfl) rfl rfl rfl

/-! ## Submission-loop lemmas -/

theorem rowIndexes_map_preserving (f : SubmissionResult → SubmissionResult)
    (hf : ∀ r, (f r).rowIndex = r.rowIndex) (rs : List SubmissionResult) :
    rowIndexes (rs.map f) = rowIndexes rs := by
  induction rs with
  | nil => rfl
  | cons r t ih =>
    simp only [rowIndexes, List.map_cons] at ih ⊢
    rw [hf, ih]

theorem rowIndexes_markStarted (i : Nat) (pay : Obj) (rs : List SubmissionResult) :
    rowIndexes (markStarted i pay rs) = rowIndexes rs :=
  rowIndexes_map_preserving
    (fun r => if r.rowIndex == i then { r with status := .pending, payload := some pay } else r)
    (fun r => by dsimp only; split <;> rfl) rs

theorem rowIndexes_applyOutcome (i : Nat) (o : RowOutcome) (rs : List SubmissionResult) :
    rowIndexes (applyOutcome i o rs) = rowIndexes rs :=
  rowIndexes_map_preserving
    (fun r =>
      if r.rowIndex == i then
        match o with
        | .ok body => { r with status := .success, response := some body, error := none }
        | .httpErr s st =>
          { r with status := .error, response := some .null, error := some s!"HTTP {s}: {st}" }
        | .netErr m => { r with status := .error, error := some m }
      else r)
    (fun r => by cases o <;> (dsimp only; split <;> rfl)) rs

theorem rowIndexes_submitRowUpd (rows : List Obj) (mappings : List FieldMapping)
    (outcome : Nat → RowOutcome) (i : Nat) (rs : List SubmissionResult) :
    rowIndexes (submitRowUpd rows mappings outcome i rs) = rowIndexes rs := by
  rw [submitRowUpd, rowIndexes_applyOutcome, rowIndexes_markStarted]

theorem rowIndexes_processRange (rows : List Obj) (mappings : List FieldMapping)
    (outcome : Nat → RowOutcome) :
    ∀ fuel lo rs, rowIndexes (processRange rows mappings outcome lo fuel rs) = rowIndexes rs := by
  intro fuel
  induction fuel with
  | zero => intro lo rs; rfl
  | succ n ih =>
    intro lo rs
    rw [processRange, ih, rowIndexes_submitRowUpd]

/-- After processing row `i`, every entry with `rowIndex ≤ i` is settled
(success or error), provided entries below `i` already were. -/
theorem submitRowUpd_status_step (rows : List Obj) (mappings : List FieldMapping)
    (outcome : Nat → RowOutcome) (i : Nat) (rs : List SubmissionResult)
    (h : ∀ r ∈ rs, r.rowIndex < i → r.status = .success ∨ r.status = .error) :
    ∀ r ∈ submitRowUpd rows mappings outcome i rs, r.rowIndex < i + 1 →
      r.status = .success ∨ r.status = .error := by
  intro r hr hlt
  simp only [submitRowUpd, applyOutcome, markStarted, List.map_map, List.mem_map,
    Function.comp] at hr
  obtain ⟨a, ha, rfl⟩ := hr
  by_cases hai : a.rowIndex = i
  · simp only [hai, beq_self_eq_true, if_true]
    cases outcome i <;> simp
  · have hbeq : (a.rowIndex == i) = false := by simp [hai]
    simp only [hbeq, Bool.false_eq_true, if_false] at hlt ⊢
    exact h a ha (by omega)

theorem processRange_status (rows : List Obj) (mappings : List FieldMapping)
    (outcome : Nat → RowOutcome) :
    ∀ fuel lo rs,
      (∀ r ∈ rs, r.rowIndex < lo → r.status = .success ∨ r.status = .error) →
      ∀ r ∈ processRange rows mappings outcome lo fuel rs, r.rowIndex < lo + fuel →
        r.status = .success ∨ r.status = .error := by
  intro fuel
  induction fuel with
  | zero =>
    intro lo rs h r hr hlt
    exact h r hr (by simpa using hlt)
  | succ n ih =>
    intro lo rs h r hr hlt
    rw [processRange] at hr
    exact ih (lo + 1) _ (submitRowUpd_status_step rows mappings outcome lo rs h) r hr (by omega)

/-- The loop's real result list is the sequential per-row processing of the
range, independently of pause clicks (which only touch the flags). -/
theorem subLoop_results_eq (rows : List Obj) (mappings : List FieldMapping)
    (outcome : Nat → RowOutcome) (pauseClick : Nat → Bool) :
    ∀ fuel i st, (subLoop rows mappings outcome false pauseClick fuel i st).1.results =
      processRange rows mappings outcome i fuel st.results := by
  intro fuel
  induction fuel with
  | zero => intro i st; rfl
  | succ n ih =>
    intro i st
    rw [subLoop, processRange]
    by_cases hp : pauseClick i <;> simp only [hp, Bool.false_eq_true, if_false, if_true] <;>
      exact ih (i + 1) _

/-! ## Claim C2 -/

/-- Claim C2, failing run: with a 2-row spreadsheet and a pause clicked
while row 0 is in flight, the loop's `if (isPaused) break` reads the stale
closure value (`false`), so the run still processes rows 0 and 1 — pausing
does not stop the iteration before the next row — even though the real
`isPaused` state was set; afterwards the cursor equals the last attempted
row (1), not last attempted + 1; and the subsequent resume click (whose
closure captures `isPaused = true`) breaks immediately and processes no
row at all. -/
theorem claim2_pause_stale_closure :
    (startSubmission c2Rows [] c2Outcome c2PauseAtZero
        (initCompState 2) (initCompState 2)).2.1 = [0, 1] ∧
    (startSubmission c2Rows [] c2Outcome c2PauseAtZero
        (initCompState 2) (initCompState 2)).1.isPaused = true ∧
    (startSubmission c2Rows [] c2Outcome c2PauseAtZero
        (initCompState 2) (initCompState 2)).1.currentRow = 1 ∧
    (startSubmission c2Rows [] c2Outcome c2PauseAtZero
        (startSubmission c2Rows [] c2Outcome c2PauseAtZero
          (initCompState 2) (initCompState 2)).1
        (startSubmission c2Rows [] c2Outcome c2PauseAtZero
          (initCompState 2) (initCompState 2)).1).2.1 = [] :=
  ⟨rfl, rfl, rfl, rfl⟩

/-! ## Claim C3 -/

/-- Claim C3, failing run: after an uninterrupted 2-row run that processed
both rows, `onSubmissionComplete` is never invoked, because the completion
check compares the stale captured cursor (0) with `rows.length - 1`; for a
1-row spreadsheet the callback does fire, but its argument is the stale
captured result list (still all `pending`), not the final results (row 0
`success`). -/
theorem claim3_completion_stale_closure :
    (startSubmission c2Rows [] c2Outcome noPause (initCompState 2) (initCompState 2)).2.1
      = [0, 1] ∧
    (startSubmission c2Rows [] c2Outcome noPause (initCompState 2) (initCompState 2)).2.2
      = none ∧
    (startSubmission [[]] [] c2Outcome noPause (initCompState 1) (initCompState 1)).2.2
      = some (initResults 1) ∧
    (initResults 1).map (fun r => r.status) = [.pending] ∧
    (startSubmission [[]] [] c2Outcome noPause (initCompState 1) (initCompState 1)).1.results.map
      (fun r => r.status) = [.success] :=
  ⟨rfl, rfl, rfl, rfl, rfl⟩

/-! ## Claim C6 -/

/-- Claim C6: the result set always has exactly one entry per row index
`0..N-1` — established at initialization and preserved by both functional
updates of `submitRow` — and after a fresh full run every entry is settled
as success or error, none pending.  (The real result list is updated through
functional `setResults` updaters, so it is immune to the stale-closure bugs
of the control flow.) -/
theorem claim6_result_set_invariant (rows : List Obj) (mappings : List FieldMapping)
    (outcome : Nat → RowOutcome) (pauseClick : Nat → Bool) :
    rowIndexes (initResults rows.length) = List.range rows.length ∧
    (∀ i pay rs, rowIndexes (markStarted i pay rs) = rowIndexes rs) ∧
    (∀ i o rs, rowIndexes (applyOutcome i o rs) = rowIndexes rs) ∧
    rowIndexes (startSubmission rows mappings outcome pauseClick
      (initCompState rows.length) (initCompState rows.length)).1.results =
      List.range rows.length ∧
    ∀ r ∈ (startSubmission rows mappings outcome pauseClick
      (initCompState rows.length) (initCompState rows.length)).1.results,
      r.status = .success ∨ r.status = .error := by
  have hinit : rowIndexes (initResults rows.length) = List.range rows.length := by
    simp only [initResults, rowIndexes, List.map_map]
    have hid : ((fun r => SubmissionResult.rowIndex r) ∘ fun i =>
        ({ rowIndex := i, status := .pending, response := none, error := none,
           payload := none } : SubmissionResult)) = id := rfl
    rw [hid, List.map_id]
  have hrun : (startSubmission rows mappings outcome pauseClick
      (initCompState rows.length) (initCompState rows.length)).1.results =
      processRange rows mappings outcome 0 rows.length (initResults rows.length) := by
    rw [startSubmission]
    exact subLoop_results_eq rows mappings outcome pauseClick (rows.length - 0) 0 _
  refine ⟨hinit, rowIndexes_markStarted, rowIndexes_applyOutcome, ?_, ?_⟩
  · rw [hrun, rowIndexes_processRange, hinit]
  · intro r hr
    rw [hrun] at hr
    have hidx : r.rowIndex < rows.length := by
      have hmem : r.rowIndex ∈ rowIndexes (processRange rows mappings outcome 0
          rows.length (initResults rows.length)) :=
        List.mem_map_of_mem _ hr
      rw [rowIndexes_processRange, hinit] at hmem
      exact List.mem_range.mp hmem
    exact processRange_status rows mappings outcome rows.length 0 _
      (by intro r2 _ hlt; omega) r hr (by omega)

/-- Claim C6, witness: in the concrete 2-row run every entry is settled;
instantiated at the head entry of the final result list. -/
theorem claim6_result_set_invariant_witness :
    ({ rowIndex := 0, status := .success, response := some (.obj []), error := none,
       payload := some [] } : SubmissionResult).status = .success ∨
    ({ rowIndex := 0, status := .success, response := some (.obj []), error := none,
       payload := some [] } : SubmissionResult).status = .error :=
  (claim6_result_set_invariant c2Rows [] c2Outcome noPause).2.2.2.2
    { rowIndex := 0, status := .success, response := some (.obj []), error := none,
      payload := some [] }
    (List.mem_cons_self _ _)

end S4
